import Mathlib

/-!
Shallow embedding of the autowrx generator-catalog / generation-dispatcher /
document-synchronizer logic, translated from
`src/frontend/src/components/organisms/PrototypeTabCode.tsx` and
`src/frontend/src/components/molecules/genAI/DaGenAI_Base.tsx`.

JavaScript runtime facilities used by that code (JSON.parse, String.prototype
trim / toLowerCase / includes, truthiness) are embedded below as executable
Lean functions so the component logic can be translated line by line.
-/

namespace Autowrx

/-- Generic JSON data values, the result type of the JavaScript `JSON.parse`.
Numbers keep their lexical parts (sign, integer digits, fraction digits,
exponent text): the component code only ever tests them for truthiness and
re-serializes them, so no numeric arithmetic is needed. -/
inductive Json where
  | null
  | bool (b : Bool)
  | num (neg : Bool) (ip : String) (fp : String) (ex : String)
  | str (s : String)
  | arr (elems : List Json)
  | obj (fields : List (String × Json))

mutual

/-- Structural equality test for `Json` values. -/
def Json.beq : Json → Json → Bool
  | .null, .null => true
  | .bool a, .bool b => a == b
  | .num n1 i1 f1 e1, .num n2 i2 f2 e2 => n1 == n2 && i1 == i2 && f1 == f2 && e1 == e2
  | .str a, .str b => a == b
  | .arr xs, .arr ys => Json.beqList xs ys
  | .obj xs, .obj ys => Json.beqFields xs ys
  | _, _ => false

/-- Pointwise equality of JSON arrays. -/
def Json.beqList : List Json → List Json → Bool
  | [], [] => true
  | x :: xs, y :: ys => Json.beq x y && Json.beqList xs ys
  | _, _ => false

/-- Pointwise equality of JSON object member lists. -/
def Json.beqFields : List (String × Json) → List (String × Json) → Bool
  | [], [] => true
  | (k1, v1) :: xs, (k2, v2) :: ys => k1 == k2 && Json.beq v1 v2 && Json.beqFields xs ys
  | _, _ => false

end

/-- JSON whitespace (RFC 8259): space, tab, line feed, carriage return. -/
def jsonWs (c : Char) : Bool :=
  c.toNat = 32 || c.toNat = 9 || c.toNat = 10 || c.toNat = 13

/-- The whitespace set removed by the JavaScript `String.prototype.trim`
(ECMAScript WhiteSpace and LineTerminator code points). -/
def jsTrimWs (c : Char) : Bool :=
  c.toNat = 9 || c.toNat = 10 || c.toNat = 11 || c.toNat = 12 || c.toNat = 13 ||
  c.toNat = 32 || c.toNat = 160 || c.toNat = 0x1680 ||
  (0x2000 ≤ c.toNat && c.toNat ≤ 0x200A) ||
  c.toNat = 0x2028 || c.toNat = 0x2029 || c.toNat = 0x202F ||
  c.toNat = 0x205F || c.toNat = 0x3000 || c.toNat = 0xFEFF

/-- `String.prototype.trim`, as a function on character lists. -/
def jsTrimList (l : List Char) : List Char :=
  ((l.dropWhile jsTrimWs).reverse.dropWhile jsTrimWs).reverse

/-- The JavaScript `String.prototype.trim`. -/
def jsTrim (s : String) : String := ⟨jsTrimList s.toList⟩

/-- `String.prototype.toLowerCase`, restricted to the ASCII case mapping
(every string the components compare is ASCII). -/
def jsToLower (s : String) : String := ⟨s.toList.map Char.toLower⟩

/-- Does `needle` occur as a prefix of `hay`? (helper for substring search). -/
def startsWithList : List Char → List Char → Bool
  | [], _ => true
  | _ :: _, [] => false
  | n :: ns, h :: hs => n == h && startsWithList ns hs

/-- Does `needle` occur as a contiguous run inside `hay`?
(the JavaScript `String.prototype.includes`). -/
def containsList (hay needle : List Char) : Bool :=
  match hay with
  | [] => needle.isEmpty
  | _ :: t => startsWithList needle hay || containsList t needle

/-- The JavaScript `String.prototype.includes`. -/
def jsIncludes (s sub : String) : Bool := containsList s.toList sub.toList

/-- JavaScript truthiness of a JSON value: `null`, `false`, numeric zero and
the empty string are falsy; every array and object is truthy. -/
def jsTruthy : Json → Bool
  | .null => false
  | .bool b => b
  | .num _ ip fp _ => !(ip.toList.all (· == '0') && fp.toList.all (· == '0'))
  | .str s => !(s == "")
  | .arr _ => true
  | .obj _ => true

/-- Is `k` the canonical decimal representation of an index (no leading
zeros except "0" itself)? Used for JavaScript property access on arrays. -/
def canonicalIndex (k : String) : Bool :=
  match k.toList with
  | [] => false
  | c :: rest =>
    if c == '0' then rest.isEmpty
    else (c :: rest).all Char.isDigit

/-- JavaScript property access `v[k]`: member lookup on objects (last
duplicate key wins per `JSON.parse`), element lookup on arrays via a
canonical numeric index, `undefined` (here `none`) on everything else. -/
def jget (v : Json) (k : String) : Option Json :=
  match v with
  | .obj fields => (fields.reverse.find? (fun kv => kv.1 == k)).map (·.2)
  | .arr elems => if canonicalIndex k then elems.get? k.toNat! else none
  | _ => none

/-- The JavaScript `a || b` on an optionally-present JSON value `a`:
keeps `a` when present and truthy, else yields the default `b`. -/
def jsOr (a : Option Json) (b : Json) : Json :=
  match a with
  | some v => if jsTruthy v then v else b
  | none => b

/-! ### JSON.parse

A recursive-descent parser for RFC 8259 JSON, fuelled so that every
definition is structurally recursive (and hence kernel-reducible).
`parseCore fuel mode cs` parses according to `mode`:
  0 = a single value, 1 = array tail right after `[`,
  3 = one-or-more array elements, 2 = object tail right after the brace,
  4 = one-or-more object members. -/

/-- Intermediate results of the JSON parser. -/
inductive PRes where
  | val (j : Json)
  | elems (xs : List Json)
  | fields (xs : List (String × Json))

/-- Drop leading JSON whitespace. -/
def skipWs (cs : List Char) : List Char := cs.dropWhile jsonWs

/-- Expect the exact characters `ks` at the front of `cs`. -/
def expectChars : List Char → List Char → Option (List Char)
  | [], cs => some cs
  | k :: ks, c :: cs => if c == k then expectChars ks cs else none
  | _ :: _, [] => none

/-- Single-character JSON string escapes. -/
def escChar (c : Char) : Option Char :=
  if c.toNat = 34 then some c            -- \"
  else if c.toNat = 92 then some c       -- backslash
  else if c.toNat = 47 then some c       -- /
  else if c == 'b' then some (Char.ofNat 8)
  else if c == 'f' then some (Char.ofNat 12)
  else if c == 'n' then some (Char.ofNat 10)
  else if c == 'r' then some (Char.ofNat 13)
  else if c == 't' then some (Char.ofNat 9)
  else none

/-- Hexadecimal digit value. -/
def hexVal (c : Char) : Option Nat :=
  if 48 ≤ c.toNat ∧ c.toNat ≤ 57 then some (c.toNat - 48)
  else if 97 ≤ c.toNat ∧ c.toNat ≤ 102 then some (c.toNat - 87)
  else if 65 ≤ c.toNat ∧ c.toNat ≤ 70 then some (c.toNat - 55)
  else none

/-- Parse the characters of a JSON string literal after the opening quote,
returning the decoded characters and the remainder after the closing quote. -/
def parseStrChars : List Char → Option (List Char × List Char)
  | [] => none
  | c :: rest =>
    if c.toNat = 34 then some ([], rest)
    else if c.toNat = 92 then
      match rest with
      | [] => none
      | e :: rest2 =>
        match escChar e with
        | some d => (parseStrChars rest2).map (fun p => (d :: p.1, p.2))
        | none =>
          if e == 'u' then
            match rest2 with
            | h1 :: h2 :: h3 :: h4 :: rest3 =>
              match hexVal h1, hexVal h2, hexVal h3, hexVal h4 with
              | some v1, some v2, some v3, some v4 =>
                (parseStrChars rest3).map
                  (fun p => (Char.ofNat (v1 * 4096 + v2 * 256 + v3 * 16 + v4) :: p.1, p.2))
              | _, _, _, _ => none
            | _ => none
          else none
    else if c.toNat < 32 then none
    else (parseStrChars rest).map (fun p => (c :: p.1, p.2))

/-- Parse a JSON number (sign, integer part, optional fraction, optional
exponent), keeping the lexical parts. -/
def parseNum (cs : List Char) : Option (Json × List Char) :=
  let (neg, cs1) :=
    match cs with
    | c :: r => if c == '-' then (true, r) else (false, cs)
    | [] => (false, cs)
  match cs1 with
  | [] => none
  | d :: r =>
    if !d.isDigit then none
    else
      let (ip, rest) :=
        if d == '0' then ("0", r)
        else (⟨d :: r.takeWhile Char.isDigit⟩, r.dropWhile Char.isDigit)
      let (fp, rest2) :=
        match rest with
        | dot :: r2 =>
          if dot == '.' then
            match r2.takeWhile Char.isDigit with
            | [] => ("", rest)    -- a bare dot makes the number invalid below
            | ds => ((⟨ds⟩ : String), r2.dropWhile Char.isDigit)
          else ("", rest)
        | [] => ("", rest)
      let dotInvalid :=
        match rest with
        | dot :: r2 => dot == '.' && (r2.takeWhile Char.isDigit).isEmpty
        | [] => false
      let (ex, rest3, expInvalid) :=
        match rest2 with
        | e :: r3 =>
          if e == 'e' || e == 'E' then
            let (sgn, r4) :=
              match r3 with
              | s :: r5 => if s == '+' || s == '-' then (String.mk [s], r5) else ("", r3)
              | [] => ("", r3)
            match r4.takeWhile Char.isDigit with
            | [] => ("", rest2, true)
            | ds => (sgn ++ (⟨ds⟩ : String), r4.dropWhile Char.isDigit, false)
          else ("", rest2, false)
        | [] => ("", rest2, false)
      if dotInvalid || expInvalid then none
      else some (Json.num neg ip fp ex, rest3)

/-- The core JSON parser (see the section comment for the `mode` encoding). -/
def parseCore : Nat → Nat → List Char → Option (PRes × List Char)
  | 0, _, _ => none
  | Nat.succ fuel, mode, cs =>
    if mode = 0 then
      match skipWs cs with
      | [] => none
      | c :: rest =>
        if c.toNat = 110 then        -- 'n'
          (expectChars ['u', 'l', 'l'] rest).map (fun r => (PRes.val Json.null, r))
        else if c.toNat = 116 then   -- 't'
          (expectChars ['r', 'u', 'e'] rest).map (fun r => (PRes.val (Json.bool true), r))
        else if c.toNat = 102 then   -- 'f'
          (expectChars ['a', 'l', 's', 'e'] rest).map (fun r => (PRes.val (Json.bool false), r))
        else if c.toNat = 34 then    -- '"'
          (parseStrChars rest).map (fun p => (PRes.val (Json.str ⟨p.1⟩), p.2))
        else if c.toNat = 91 then    -- '['
          match parseCore fuel 1 rest with
          | some (PRes.elems xs, r) => some (PRes.val (Json.arr xs), r)
          | _ => none
        else if c.toNat = 123 then   -- left brace
          match parseCore fuel 2 rest with
          | some (PRes.fields xs, r) => some (PRes.val (Json.obj xs), r)
          | _ => none
        else if c.toNat = 45 ∨ (48 ≤ c.toNat ∧ c.toNat ≤ 57) then
          (parseNum (c :: rest)).map (fun p => (PRes.val p.1, p.2))
        else none
    else if mode = 1 then
      match skipWs cs with
      | [] => none
      | c :: rest =>
        if c.toNat = 93 then some (PRes.elems [], rest)   -- ']'
        else parseCore fuel 3 cs
    else if mode = 3 then
      match parseCore fuel 0 cs with
      | some (PRes.val j, r1) =>
        (match skipWs r1 with
        | c :: r2 =>
          if c.toNat = 44 then        -- ','
            match parseCore fuel 3 r2 with
            | some (PRes.elems xs, r3) => some (PRes.elems (j :: xs), r3)
            | _ => none
          else if c.toNat = 93 then some (PRes.elems [j], r2)
          else none
        | [] => none)
      | _ => none
    else if mode = 2 then
      match skipWs cs with
      | [] => none
      | c :: rest =>
        if c.toNat = 125 then some (PRes.fields [], rest)   -- right brace
        else parseCore fuel 4 cs
    else if mode = 4 then
      match skipWs cs with
      | c :: rest =>
        if c.toNat = 34 then
          match parseStrChars rest with
          | some (kcs, r1) =>
            (match skipWs r1 with
            | c2 :: r2 =>
              if c2.toNat = 58 then   -- ':'
                match parseCore fuel 0 r2 with
                | some (PRes.val v, r3) =>
                  (match skipWs r3 with
                  | c3 :: r4 =>
                    if c3.toNat = 44 then
                      match parseCore fuel 4 r4 with
                      | some (PRes.fields xs, r5) =>
                        some (PRes.fields ((⟨kcs⟩, v) :: xs), r5)
                      | _ => none
                    else if c3.toNat = 125 then
                      some (PRes.fields [((⟨kcs⟩ : String), v)], r4)
                    else none
                  | [] => none)
                | _ => none
              else none
            | [] => none)
          | none => none
        else none
      | [] => none
    else none

/-- The JavaScript `JSON.parse`: parse one value and require that only
whitespace follows it; `none` models a thrown `SyntaxError`. -/
def jsonParse (s : String) : Option Json :=
  let cs := s.toList
  match parseCore (2 * cs.length + 4) 0 cs with
  | some (PRes.val j, rest) => if skipWs rest = [] then some j else none
  | _ => none

/-! ### Further JavaScript runtime helpers used by the dispatcher -/

/-- Rebuild the lexical text of a parsed JSON number.  (`JSON.stringify`
re-serializes the numeric value; on canonically written inputs the two
coincide, and no claim inspects serialized numbers.) -/
def numLexeme (neg : Bool) (ip fp ex : String) : String :=
  (if neg then "-" else "") ++ ip ++
  (if fp = "" then "" else "." ++ fp) ++
  (if ex = "" then "" else "e" ++ ex)

/-- Lower-case hexadecimal digit. -/
def hexDigitLower (n : Nat) : Char :=
  if n < 10 then Char.ofNat (48 + n) else Char.ofNat (87 + (n - 10))

/-- Upper-case hexadecimal digit. -/
def hexDigitUpper (n : Nat) : Char :=
  if n < 10 then Char.ofNat (48 + n) else Char.ofNat (55 + (n - 10))

/-- Escape one character for a serialized JSON string literal. -/
def escapeJsonChar (c : Char) : List Char :=
  if c.toNat = 34 then [Char.ofNat 92, Char.ofNat 34]
  else if c.toNat = 92 then [Char.ofNat 92, Char.ofNat 92]
  else if c.toNat = 8 then [Char.ofNat 92, 'b']
  else if c.toNat = 9 then [Char.ofNat 92, 't']
  else if c.toNat = 10 then [Char.ofNat 92, 'n']
  else if c.toNat = 12 then [Char.ofNat 92, 'f']
  else if c.toNat = 13 then [Char.ofNat 92, 'r']
  else if c.toNat < 32 then
    [Char.ofNat 92, 'u', '0', '0', hexDigitLower (c.toNat / 16), hexDigitLower (c.toNat % 16)]
  else [c]

/-- Serialize a string as a JSON string literal. -/
def quoteJsonString (s : String) : String :=
  ⟨Char.ofNat 34 :: (s.toList.map escapeJsonChar).flatten ++ [Char.ofNat 34]⟩

/-- `n` spaces. -/
def spaces (n : Nat) : String := ⟨List.replicate n ' '⟩

mutual

/-- `JSON.stringify(v, null, 4)` at nesting indentation `ind`. -/
def Json.stringifyIndent : Json → Nat → String
  | .null, _ => "null"
  | .bool true, _ => "true"
  | .bool false, _ => "false"
  | .num n i f e, _ => numLexeme n i f e
  | .str s, _ => quoteJsonString s
  | .arr [], _ => "[]"
  | .arr (x :: xs), ind =>
    "[\n" ++ Json.stringifyElems (x :: xs) (ind + 4) ++ "\n" ++ spaces ind ++ "]"
  | .obj [], _ => "\x7b\x7d"
  | .obj (x :: xs), ind =>
    "\x7b\n" ++ Json.stringifyMembers (x :: xs) (ind + 4) ++ "\n" ++ spaces ind ++ "\x7d"

/-- Serialize array elements, one per line. -/
def Json.stringifyElems : List Json → Nat → String
  | [], _ => ""
  | [x], ind => spaces ind ++ Json.stringifyIndent x ind
  | x :: y :: xs, ind =>
    spaces ind ++ Json.stringifyIndent x ind ++ ",\n" ++ Json.stringifyElems (y :: xs) ind

/-- Serialize object members, one per line. -/
def Json.stringifyMembers : List (String × Json) → Nat → String
  | [], _ => ""
  | [(k, v)], ind => spaces ind ++ quoteJsonString k ++ ": " ++ Json.stringifyIndent v ind
  | (k, v) :: y :: xs, ind =>
    spaces ind ++ quoteJsonString k ++ ": " ++ Json.stringifyIndent v ind ++ ",\n" ++
      Json.stringifyMembers (y :: xs) ind

end

/-- `JSON.stringify(v, null, 4)`. -/
def jsonStringify (v : Json) : String := Json.stringifyIndent v 0

/-- The JavaScript `String(v)` conversion for the scalar JSON values (the
asset blobs declare string-typed fields; non-scalar values never reach a
string position in the claims). -/
def jsToStringValue : Json → String
  | .null => "null"
  | .bool true => "true"
  | .bool false => "false"
  | .num n i f e => numLexeme n i f e
  | .str s => s
  | .arr xs => Json.stringifyElems xs 0
  | .obj _ => "[object Object]"

/-- UTF-8 bytes of a code point. -/
def utf8Bytes (n : Nat) : List Nat :=
  if n < 0x80 then [n]
  else if n < 0x800 then [0xC0 + n / 64, 0x80 + n % 64]
  else if n < 0x10000 then [0xE0 + n / 4096, 0x80 + (n / 64) % 64, 0x80 + n % 64]
  else [0xF0 + n / 262144, 0x80 + (n / 4096) % 64, 0x80 + (n / 64) % 64, 0x80 + n % 64]

/-- Characters `encodeURIComponent` leaves unescaped. -/
def uriUnreserved (c : Char) : Bool :=
  c.isAlpha || c.isDigit || c.toNat = 45 || c.toNat = 95 || c.toNat = 46 ||
  c.toNat = 33 || c.toNat = 126 || c.toNat = 42 || c.toNat = 39 ||
  c.toNat = 40 || c.toNat = 41

/-- Percent-encode one byte. -/
def percentByte (b : Nat) : List Char :=
  [Char.ofNat 37, hexDigitUpper (b / 16), hexDigitUpper (b % 16)]

/-- The JavaScript `encodeURIComponent`. -/
def encodeURIComponent (s : String) : String :=
  ⟨(s.toList.map (fun c =>
      if uriUnreserved c then [c] else ((utf8Bytes c.toNat).map percentByte).flatten)).flatten⟩

/-- The JavaScript `opt || dflt` for an optional string field of a
descriptor: the default replaces both an absent field and an empty one. -/
def strOr (opt : Option String) (dflt : String) : String :=
  match opt with
  | some s => if s = "" then dflt else s
  | none => dflt

/-! ## PrototypeTabCode.tsx — Document Session Synchronizer -/

/-- Content modes of the code editor (`'project' | 'code'`). -/
inductive EditorType where
  | project
  | code
deriving DecidableEq, Repr

/-- `getEditorType` from `PrototypeTabCode.tsx`: try `JSON.parse`; an array
result selects the project editor, everything else (including empty or
whitespace-only text and parse failures) the code editor. -/
def getEditorType (content : String) : EditorType :=
  if content = "" ∨ jsTrim content = "" then .code
  else
    match jsonParse content with
    | some (Json.arr _) => .project
    | _ => .code

/-- The active prototype record, restricted to the fields
`PrototypeTabCode` touches (`prototype.id`, `prototype.code`). -/
structure Prototype where
  id : String
  code : Option String

/-- The component state of `PrototypeTabCode`: the `code` and `savedCode`
`useState` buffers and the store's active prototype. -/
structure CodeState where
  code : Option String
  savedCode : Option String
  prototype : Option Prototype

/-- The body of the `try` block of `saveCodeToDb`
(`updatePrototypeService` + the three state updates), given whether the
remote update succeeds.  On success the buffers and the active prototype
record are set to the saved text; on failure (`catch`) nothing changes.
(The store update re-fires the `[prototype]` effect, which re-writes the
same values into `code`/`savedCode`, leaving the state below unchanged.) -/
def persistUpdate (st : CodeState) (p : Prototype) (dataToSave : String)
    (updateOk : Bool) : CodeState :=
  if updateOk then
    { code := some dataToSave, savedCode := some dataToSave,
      prototype := some { p with code := some dataToSave } }
  else st

/-- `saveCodeToDb` from `PrototypeTabCode.tsx`.  `codeToSave = none` is the
parameterless heartbeat call; `some c` is an explicit save.  `updateOk`
resolves the awaited remote update.  Returns the new state and the text
sent to the remote store (`none` when no `updatePrototypeService` call is
made). -/
def saveCodeToDb (st : CodeState) (codeToSave : Option String)
    (updateOk : Bool) : CodeState × Option String :=
  let dataToSave? : Option String :=
    match codeToSave with
    | some c =>
      -- Explicit save from editor — always persist, do not skip
      if c = "" then none else some c
    | none =>
      -- Periodic auto-save — skip if unchanged
      match st.code with
      | none => none
      | some c => if c = "" ∨ st.savedCode = some c then none else some c
  match dataToSave? with
  | none => (st, none)
  | some d =>
    match st.prototype with
    | none => (st, none)
    | some p =>
      if p.id = "" then (st, none)
      else (persistUpdate st p d updateOk, some d)

/-- The `[prototype]` effect of `PrototypeTabCode`: on a document switch
both buffers are reset from the new prototype's code and the editor type
is recomputed. -/
def documentSwitch (newProto : Option Prototype) : CodeState × EditorType :=
  match newProto with
  | none => ({ code := none, savedCode := none, prototype := none }, .code)
  | some p =>
    let prototypeCode := p.code.getD ""
    ({ code := some prototypeCode, savedCode := some prototypeCode,
       prototype := some p }, getEditorType prototypeCode)

/-! ## DaGenAI_Base.tsx — Addon Catalog Resolver and Generation Dispatcher -/

/-- A generator descriptor (the `AddOn` type of `@/types/addon.type`),
restricted to the fields `DaGenAI_Base` reads.  Optional TypeScript fields
are `Option`s; `customPayload` is the payload-builder function. -/
structure AddOn where
  id : String
  type : String
  name : String
  description : String
  apiKey : String
  endpointUrl : String
  method : Option String
  requestField : Option String
  responseField : Option String
  samples : Option String
  customPayload : Option (String → List (String × String))
  isMock : Bool

/-- The default payload builder `(prompt) => ({ prompt })`. -/
def defaultCustomPayload : String → List (String × String) := fun prompt => [("prompt", prompt)]

/-- The built-in `GenAI_Python` addon list ("SDV Copilot"), with the
endpoint URL that the config-loading effect resolved
(`''` both initially and when `GENAI_SDV_APP_ENDPOINT` is unconfigured). -/
def builtInAddOnsFor (endpointUrl : String) : List AddOn :=
  [{ id := "sdv-copilot-builtin"
     type := "GenAI_Python"
     name := "SDV Copilot"
     description := "Support develop basic SDV Python App"
     apiKey := "Empty"
     endpointUrl := endpointUrl
     customPayload := some defaultCustomPayload
     method := some "POST"
     requestField := some "prompt"
     responseField := some "data"
     samples := none
     isMock := false }]

/-- `mergedBuiltInAddOns` from `DaGenAI_Base.tsx`: each built-in addon is
replaced by the first marketplace entry with the same `id` (spread of the
marketplace entry), but `customPayload` is always re-assigned from the
built-in's `customPayload || ((prompt) => ({ prompt }))`. -/
def mergedBuiltInAddOns (builtInAddOns : List AddOn)
    (marketplaceAddOns : Option (List AddOn)) : List AddOn :=
  builtInAddOns.map fun addOn =>
    let marketplaceMatch :=
      match marketplaceAddOns with
      | some l => l.find? (fun marketAddOn : AddOn => marketAddOn.id == addOn.id)
      | none => none
    match marketplaceMatch with
    | some m => { m with customPayload := some (addOn.customPayload.getD defaultCustomPayload) }
    | none =>
      { addOn with customPayload := some (addOn.customPayload.getD defaultCustomPayload) }

/-- `filteredMarketplaceAddOns` from `DaGenAI_Base.tsx`: marketplace
entries are hidden when their `id` or lower-cased `name` matches a merged
built-in entry, or their lower-cased name contains `"sdv copilot"` or
`"sdv-copilot"`. -/
def filteredMarketplaceAddOns (builtInAddOns : List AddOn)
    (marketplaceAddOns : Option (List AddOn)) : List AddOn :=
  match marketplaceAddOns with
  | none => []
  | some mk =>
    let merged := mergedBuiltInAddOns builtInAddOns marketplaceAddOns
    let builtInIds := merged.map (·.id)
    let builtInNames := merged.map (fun addon => jsToLower addon.name)
    mk.filter fun addon =>
      let addonNameLower := jsToLower addon.name
      let isBuiltInById := builtInIds.contains addon.id
      let isBuiltInByName := builtInNames.contains addonNameLower
      let isSDVCopilot :=
        jsIncludes addonNameLower "sdv copilot" || jsIncludes addonNameLower "sdv-copilot"
      !isBuiltInById && !isBuiltInByName && !isSDVCopilot

/-- A user-defined generator asset record as returned by the asset store:
a name, an asset type tag, and a JSON-encoded `data` blob. -/
structure Asset where
  name : String
  type : String
  data : String

/-- The JavaScript `data.k || dflt` on a parsed blob, landing in a
string-typed descriptor field. -/
def jsFieldOr (d : Json) (k : String) (dflt : String) : String :=
  match jget d k with
  | some v => if jsTruthy v then jsToStringValue v else dflt
  | none => dflt

/-- One element of the `pythonAIAddons` map in `DaGenAI_Base.tsx`.
`suffix` is the fresh `Math.random().toString(36).substring(2, 8)` draw
made for this element during this catalog load.  When the blob fails to
parse, the protocol locals keep their initializers
(`url = ''`, `accessToken = ''`, `method = 'POST'`, `requestField = ''`,
`responseField = ''`). -/
def buildUserAddon (asset : Asset) (suffix : String) : AddOn :=
  match jsonParse asset.data with
  | some d =>
    { id := asset.name ++ "-" ++ suffix
      type := "GenAI_Python"
      name := if asset.name = "" then "My python genAI" else asset.name
      description := ""
      apiKey := jsFieldOr d "accessToken" ""
      endpointUrl := jsFieldOr d "url" ""
      method := some (jsFieldOr d "method" "POST")
      requestField := some (jsFieldOr d "requestField" "prompt")
      responseField := some (jsFieldOr d "responseField" "data")
      samples := none
      customPayload := some defaultCustomPayload
      isMock := false }
  | none =>
    { id := asset.name ++ "-" ++ suffix
      type := "GenAI_Python"
      name := if asset.name = "" then "My python genAI" else asset.name
      description := ""
      apiKey := ""
      endpointUrl := ""
      method := some "POST"
      requestField := some ""
      responseField := some ""
      samples := none
      customPayload := some defaultCustomPayload
      isMock := false }

/-- The `userAIAddons` catalog built by the assets effect for
`GenAI_Python`: filter the assets to `GENAI-PYTHON` and build one
descriptor per asset.  `suffixes i` is the random suffix drawn for the
`i`-th descriptor of this load. -/
def userAIAddons (assets : Option (List Asset)) (suffixes : Nat → String) : List AddOn :=
  match assets with
  | none => []
  | some l =>
    let pythonGenAIs := l.filter (fun asset => asset.type == "GENAI-PYTHON")
    pythonGenAIs.enum.map (fun ia => buildUserAddon ia.2 (suffixes ia.1))

/-! ### The generation dispatcher -/

/-- Modelled from the spec: the fixed canned result returned by the mock
generator after the simulated delay (module `@/data/default_generated_code`
is not among the sources; only its being a fixed text matters). -/
def default_generated_code : String := "# generated code"

/-- Externally observable actions of one `handleGenerate` run, in order:
the `onCodeGenerated` / `onLoadingChange` / `onFinishChange` callbacks,
`toast.error` notifications, `console.log`/`console.error` output, and the
HTTP requests issued through axios. -/
inductive GenEvent where
  | codeGenerated (value : Json)
  | loadingChange (b : Bool)
  | finishChange (b : Bool)
  | toastError (msg : String)
  | consoleLog (msg : String)
  | httpGet (url : String) (authHeader : String)
  | httpPost (url : String) (authHeader : Option String) (body : List (String × Json))

/-- Resolution of one awaited HTTP request: the response `data` on a 2xx
reply, or a transport/HTTP failure carrying its message. -/
inductive HttpOutcome where
  | ok (respData : Json)
  | err (msg : String)

/-- The dispatcher's environment: the value `getConfig` resolves for
`GENAI_SDV_APP_ENDPOINT` (`''` when unconfigured) and the outcome of each
HTTP request, keyed by URL. -/
structure GenEnv where
  fallbackEndpoint : String
  getOutcome : String → HttpOutcome
  postOutcome : String → HttpOutcome

/-- The message of the error thrown when the fallback endpoint is not
configured (logged by the enclosing `catch`). -/
def notConfiguredMsg : String :=
  "GENAI_SDV_APP_ENDPOINT is not configured. Please configure it in Site Management."

/-- `selectedAddOn.method?.toLowerCase().trim()`. -/
def effectiveMethod (a : AddOn) : Option String :=
  a.method.map (fun m => jsTrim (jsToLower m))

/-- Response normalization shared by the GET and POST branches: if
`response.data` and `response.data[responseField || 'data']` are truthy,
emit that field; otherwise emit the formatted diagnostic text embedding
the pretty-printed response body. -/
def normalizeFieldResponse (a : AddOn) (respData : Json) : GenEvent :=
  let field := strOr a.responseField "data"
  match jget respData field with
  | some v =>
    if jsTruthy respData && jsTruthy v then .codeGenerated v
    else .codeGenerated (.str ("Error: Receive incorrect format data\r\n" ++ jsonStringify respData))
  | none =>
    .codeGenerated (.str ("Error: Receive incorrect format data\r\n" ++ jsonStringify respData))

/-- `handleGenerate` from `DaGenAI_Base.tsx`, as the ordered list of its
observable events.  `sel` is `selectedAddOn`; a `none` selection returns
immediately with no events.  Each branch's axios `await` is resolved by
`env`; a rejected await is consumed by the branch's own
`catch (err) { console.log(err) }`, so the outer `catch` (the
`toast.error` path) is unreachable unless a callback itself throws, and
the `finally` block always appends the final loading/finished reports. -/
def handleGenerate (sel : Option AddOn) (prompt : String) (env : GenEnv) : List GenEvent :=
  match sel with
  | none => []
  | some a =>
    let tryBody : List GenEvent :=
      if a.isMock then [.codeGenerated (.str default_generated_code)]
      else if a.endpointUrl ≠ "" ∧ a.name ≠ "SDV Copilot" then
        match effectiveMethod a with
        | some m =>
          if m = "get" then
            let url := a.endpointUrl ++ "?" ++ strOr a.requestField "prompt" ++ "=" ++
              encodeURIComponent prompt
            .httpGet url a.apiKey ::
            (match env.getOutcome url with
             | .ok respData => [normalizeFieldResponse a respData]
             | .err msg => [.consoleLog msg])
          else if m = "post" then
            let body := [("systemMessage", Json.str (a.samples.getD "")),
                         (strOr a.requestField "prompt", Json.str prompt)]
            .httpPost a.endpointUrl (some a.apiKey) body ::
            (match env.postOutcome a.endpointUrl with
             | .ok respData => [normalizeFieldResponse a respData]
             | .err msg => [.consoleLog msg])
          else []
        | none => []
      else
        if env.fallbackEndpoint = "" then [.consoleLog notConfiguredMsg]
        else
          let body := [("systemMessage", Json.str (a.samples.getD "")),
                       ("message", Json.str prompt)]
          .httpPost env.fallbackEndpoint none body ::
          (match env.postOutcome env.fallbackEndpoint with
           | .ok respData =>
             [.codeGenerated (jsOr (jget respData "content")
               (jsOr (jget respData "data") (.str (jsonStringify respData))))]
           | .err msg => [.consoleLog msg])
    .codeGenerated (.str "") :: .loadingChange true ::
      (tryBody ++ [.loadingChange false, .finishChange true])

/-- Is this event an HTTP request? -/
def GenEvent.isHttp : GenEvent → Bool
  | .httpGet _ _ => true
  | .httpPost _ _ _ => true
  | _ => false

/-- Is this event an `onCodeGenerated` callback? -/
def GenEvent.isCodeGenerated : GenEvent → Bool
  | .codeGenerated _ => true
  | _ => false

/-- Is this event a user-facing `toast.error` notification? -/
def GenEvent.isToastError : GenEvent → Bool
  | .toastError _ => true
  | _ => false

/-- Is this event an `onFinishChange` report? -/
def GenEvent.isFinishChange : GenEvent → Bool
  | .finishChange _ => true
  | _ => false

/-! ## Concrete instances used by witnesses and counterexamples -/

/-- A dirty open document session: the buffer holds `"dirty"`, the persisted
copy is `"clean"`. -/
def dirtySession : CodeState :=
  { code := some "dirty", savedCode := some "clean",
    prototype := some { id := "proto1", code := some "clean" } }

/-! ## Claims -/

/-- C1: for every `persist(text)` call of `saveCodeToDb` (i.e. whenever the
remote update is actually issued, whether from the heartbeat or from an
explicit save): on success, `code` and `savedCode` both become `text` and
the active prototype record's `code` field becomes `text` (its identity is
unchanged); on failure, the entire component state is unchanged. -/
theorem persist_outcome_C1 (st : CodeState) (codeToSave : Option String)
    (ok : Bool) (text : String) (p : Prototype)
    (hp : st.prototype = some p)
    (hcall : (saveCodeToDb st codeToSave ok).2 = some text) :
    (ok = true → (saveCodeToDb st codeToSave ok).1 =
      { code := some text, savedCode := some text,
        prototype := some { id := p.id, code := some text } }) ∧
    (ok = false → (saveCodeToDb st codeToSave ok).1 = st) := by
  rcases codeToSave with _ | c
  · rcases hcode : st.code with _ | c
    · simp [saveCodeToDb, hcode] at hcall
    · by_cases hskip : c = "" ∨ st.savedCode = some c
      · simp [saveCodeToDb, hcode, hskip] at hcall
      · by_cases hid : p.id = ""
        · simp [saveCodeToDb, hcode, hskip, hp, hid] at hcall
        · obtain rfl : c = text := by
            simpa [saveCodeToDb, hcode, hskip, hp, hid] using hcall
          cases ok <;> simp [saveCodeToDb, hcode, hskip, hp, hid, persistUpdate]
  · by_cases he : c = ""
    · simp [saveCodeToDb, he] at hcall
    · by_cases hid : p.id = ""
      · simp [saveCodeToDb, he, hp, hid] at hcall
      · obtain rfl : c = text := by
          simpa [saveCodeToDb, he, hp, hid] using hcall
        cases ok <;> simp [saveCodeToDb, he, hp, hid, persistUpdate]

/-- Witness for C1 at a concrete dirty session and the explicit save of
`"new"`. -/
theorem persist_outcome_C1_witness :
    (true = true → (saveCodeToDb dirtySession (some "new") true).1 =
      { code := some "new", savedCode := some "new",
        prototype := some { id := "proto1", code := some "new" } }) ∧
    (true = false → (saveCodeToDb dirtySession (some "new") true).1 = dirtySession) :=
  persist_outcome_C1 dirtySession (some "new") true "new"
    { id := "proto1", code := some "clean" } rfl rfl

/-- C3: for an open document session (a prototype with a non-empty id is
active): the heartbeat call (`saveCodeToDb()` with no argument) issues a
persist exactly when the buffer is non-empty and differs from the last
persisted text; an explicit save with non-empty text always persists that
text (even when it equals the last persisted text); an explicit save with
empty text never persists. -/
theorem save_triggers_C3 (st : CodeState) (p : Prototype) (ok : Bool)
    (hp : st.prototype = some p) (hid : p.id ≠ "") :
    ((saveCodeToDb st none ok).2 ≠ none ↔
      ∃ c, st.code = some c ∧ c ≠ "" ∧ st.savedCode ≠ some c) ∧
    (∀ text : String, text ≠ "" → (saveCodeToDb st (some text) ok).2 = some text) ∧
    (saveCodeToDb st (some "") ok).2 = none := by
  refine ⟨?_, ?_, by simp [saveCodeToDb]⟩
  · rcases hcode : st.code with _ | c
    · simp [saveCodeToDb, hcode]
    · by_cases hskip : c = "" ∨ st.savedCode = some c
      · simp only [saveCodeToDb, hcode, if_pos hskip, ne_eq, not_true_eq_false, false_iff,
          not_exists, not_and]
        rintro x hx
        obtain rfl : c = x := by injection hx
        rcases hskip with h | h
        · simp [h]
        · simp [h]
      · push_neg at hskip
        simp only [saveCodeToDb, hcode, hskip.1, hskip.2, or_self, if_false, hp,
          if_neg hid, ne_eq, reduceCtorEq, not_false_eq_true, true_iff]
        exact ⟨c, rfl, hskip.1, hskip.2⟩
  · intro text htext
    simp [saveCodeToDb, htext, hp, hid]

/-- Witness for C3 at a concrete dirty open session. -/
theorem save_triggers_C3_witness :
    ((saveCodeToDb dirtySession none true).2 ≠ none ↔
      ∃ c, dirtySession.code = some c ∧ c ≠ "" ∧ dirtySession.savedCode ≠ some c) ∧
    (∀ text : String, text ≠ "" → (saveCodeToDb dirtySession (some text) true).2 = some text) ∧
    (saveCodeToDb dirtySession (some "") true).2 = none :=
  save_triggers_C3 dirtySession { id := "proto1", code := some "clean" } true rfl
    (by decide)

/-- C9: for every generate call with a selected descriptor, the very first
observable event is `onCodeGenerated("")` — the consumer's buffer is erased
before any dispatch branch runs, whatever the dispatch then does. -/
theorem firstEmit_C9 (a : AddOn) (prompt : String) (env : GenEnv) :
    (handleGenerate (some a) prompt env).head? =
      some (GenEvent.codeGenerated (Json.str "")) := rfl

/-- A non-mock descriptor with an explicit endpoint and the unsupported
method `"PUT"`. -/
def putAddOn : AddOn :=
  { id := "m1", type := "GenAI_Python", name := "My Gen", description := ""
    apiKey := "k", endpointUrl := "https://e", method := some "PUT"
    requestField := some "q", responseField := some "out", samples := none
    customPayload := none, isMock := false }

/-- An environment in which every request would fail (no request should be
made at all in the scenarios using it). -/
def failingEnv : GenEnv :=
  { fallbackEndpoint := "", getOutcome := fun _ => .err "unreachable",
    postOutcome := fun _ => .err "unreachable" }

/-- C7: a generate call on a non-mock descriptor with a non-empty
`endpointUrl`, a name other than the reserved `"SDV Copilot"`, and a
method that lower-cases/trims to neither `"get"` nor `"post"`, issues no
HTTP request and emits no result beyond the initial buffer erase — no
further `onCodeGenerated`, no `toast.error` — yet `onFinishChange(true)`
still fires exactly once. -/
theorem unsupportedMethod_C7 (a : AddOn) (prompt : String) (env : GenEnv)
    (hmock : a.isMock = false)
    (hurl : a.endpointUrl ≠ "")
    (hname : a.name ≠ "SDV Copilot")
    (hget : effectiveMethod a ≠ some "get")
    (hpost : effectiveMethod a ≠ some "post") :
    handleGenerate (some a) prompt env =
      [.codeGenerated (.str ""), .loadingChange true,
       .loadingChange false, .finishChange true] ∧
    (handleGenerate (some a) prompt env).filter GenEvent.isHttp = [] ∧
    (handleGenerate (some a) prompt env).filter GenEvent.isCodeGenerated =
      [.codeGenerated (.str "")] ∧
    (handleGenerate (some a) prompt env).filter GenEvent.isToastError = [] ∧
    (handleGenerate (some a) prompt env).countP GenEvent.isFinishChange = 1 := by
  have htrace : handleGenerate (some a) prompt env =
      [.codeGenerated (.str ""), .loadingChange true,
       .loadingChange false, .finishChange true] := by
    rcases hm : effectiveMethod a with _ | m
    · simp [handleGenerate, hmock, hurl, hname, hm]
    · have hg : m ≠ "get" := fun h => hget (by rw [hm, h])
      have hp : m ≠ "post" := fun h => hpost (by rw [hm, h])
      simp [handleGenerate, hmock, hurl, hname, hm, hg, hp]
  refine ⟨htrace, ?_, ?_, ?_, ?_⟩ <;>
    rw [htrace] <;> rfl

/-- Witness for C7: the concrete `"PUT"` descriptor. -/
theorem unsupportedMethod_C7_witness :
    handleGenerate (some putAddOn) "hi" failingEnv =
      [.codeGenerated (.str ""), .loadingChange true,
       .loadingChange false, .finishChange true] ∧
    (handleGenerate (some putAddOn) "hi" failingEnv).filter GenEvent.isHttp = [] ∧
    (handleGenerate (some putAddOn) "hi" failingEnv).filter GenEvent.isCodeGenerated =
      [.codeGenerated (.str "")] ∧
    (handleGenerate (some putAddOn) "hi" failingEnv).filter GenEvent.isToastError = [] ∧
    (handleGenerate (some putAddOn) "hi" failingEnv).countP GenEvent.isFinishChange = 1 :=
  unsupportedMethod_C7 putAddOn "hi" failingEnv rfl (by decide) (by decide)
    (by decide) (by decide)

/-- A user-defined generator asset with a well-formed blob. -/
def sampleAsset : Asset :=
  { name := "myai", type := "GENAI-PYTHON",
    data := "\x7b\"url\": \"https://u\"\x7d" }

/-- C10: user-defined descriptor ids are `asset name ++ "-" ++ suffix`,
where the suffix is a fresh random draw made during the catalog load; two
loads whose draws differ give the same asset different ids, so a
remembered user-defined selection cannot be re-matched by id on a later
load with a different draw.  The last conjunct lifts this to the
`userAIAddons` catalog builder itself. -/
theorem userIds_unstable_C10 :
    (∀ (asset : Asset) (suffix : String),
      (buildUserAddon asset suffix).id = asset.name ++ "-" ++ suffix) ∧
    (∀ (asset : Asset) (s1 s2 : String), s1 ≠ s2 →
      (buildUserAddon asset s1).id ≠ (buildUserAddon asset s2).id) ∧
    (∀ (asset : Asset) (f g : Nat → String), asset.type = "GENAI-PYTHON" →
      f 0 ≠ g 0 →
      (userAIAddons (some [asset]) f).map AddOn.id ≠
        (userAIAddons (some [asset]) g).map AddOn.id) := by
  have hid : ∀ (asset : Asset) (suffix : String),
      (buildUserAddon asset suffix).id = asset.name ++ "-" ++ suffix := by
    intro asset suffix
    unfold buildUserAddon
    cases jsonParse asset.data <;> rfl
  have hne : ∀ (asset : Asset) (s1 s2 : String), s1 ≠ s2 →
      (buildUserAddon asset s1).id ≠ (buildUserAddon asset s2).id := by
    intro asset s1 s2 hs h
    rw [hid, hid] at h
    have hdata := congrArg String.data h
    simp only [String.data_append] at hdata
    exact hs (String.ext (List.append_cancel_left hdata))
  refine ⟨hid, hne, ?_⟩
  intro asset f g htype hfg h
  have hstep : ∀ k : Nat → String,
      (userAIAddons (some [asset]) k).map AddOn.id = [(buildUserAddon asset (k 0)).id] := by
    intro k
    simp [userAIAddons, List.filter, htype, List.enum, List.enumFrom]
  rw [hstep, hstep] at h
  exact hne asset (f 0) (g 0) hfg (by injection h)

/-- Witness for C10: two draws for the same asset give distinct ids. -/
theorem userIds_unstable_C10_witness :
    (buildUserAddon sampleAsset "abc123").id = "myai-abc123" ∧
    (buildUserAddon sampleAsset "abc123").id ≠ (buildUserAddon sampleAsset "xyz789").id ∧
    (userAIAddons (some [sampleAsset]) (fun _ => "abc123")).map AddOn.id ≠
      (userAIAddons (some [sampleAsset]) (fun _ => "xyz789")).map AddOn.id :=
  ⟨(userIds_unstable_C10.1 sampleAsset "abc123").trans rfl,
   userIds_unstable_C10.2.1 sampleAsset "abc123" "xyz789" (by decide),
   userIds_unstable_C10.2.2 sampleAsset _ _ rfl (by decide)⟩

/-- A built-in descriptor with id `"x"` and its own payload builder. -/
def builtinX : AddOn :=
  { id := "x", type := "GenAI_Python", name := "Builtin X", description := ""
    apiKey := "", endpointUrl := "", method := some "POST"
    requestField := none, responseField := none, samples := none
    customPayload := some (fun prompt => [("prompt", prompt)]), isMock := false }

/-- A marketplace entry sharing id `"x"` that supplies its own payload
builder (producing a differently-keyed payload). -/
def marketX : AddOn :=
  { builtinX with
    name := "Market X"
    customPayload := some (fun prompt => [("marketField", prompt)]) }

/-- Counterexample to C2 as stated: with built-in `builtinX` and
marketplace entry `marketX` (same id, marketplace supplies its own
payload builder), the merged entry's payload builder is **not** the
marketplace one — observed at the prompt `"p"`, the merged builder yields
the built-in's payload, not the marketplace's. -/
theorem mergedPayload_C2_counterexample :
    (mergedBuiltInAddOns [builtinX] (some [marketX])).map
        (fun a => (a.customPayload.getD defaultCustomPayload) "p") ≠
      [(marketX.customPayload.getD defaultCustomPayload) "p"] ∧
    (mergedBuiltInAddOns [builtinX] (some [marketX])).map
        (fun a => (a.customPayload.getD defaultCustomPayload) "p") =
      [[("prompt", "p")]] ∧
    (marketX.customPayload.getD defaultCustomPayload) "p" = [("marketField", "p")] := by
  refine ⟨?_, rfl, rfl⟩
  intro h
  have h2 : [[("prompt", "p")]] = [[("marketField", "p")]] := by
    calc [[("prompt", "p")]]
        = (mergedBuiltInAddOns [builtinX] (some [marketX])).map
            (fun a => (a.customPayload.getD defaultCustomPayload) "p") := rfl
      _ = [(marketX.customPayload.getD defaultCustomPayload) "p"] := h
      _ = [[("marketField", "p")]] := rfl
  simp at h2

/-- C2 as amended: a marketplace entry whose id matches a built-in's id
replaces the built-in entry field-for-field (all its visible fields are
kept), but its `customPayload` is always overwritten with the built-in's
payload builder (or the default single-field prompt builder when the
built-in supplies none) — the marketplace entry's own payload builder is
never used. -/
theorem mergedPayload_C2_amended (builtIns mk : List AddOn) (i : Nat) (b m : AddOn)
    (hb : builtIns[i]? = some b)
    (hm : mk.find? (fun x : AddOn => x.id == b.id) = some m) :
    (mergedBuiltInAddOns builtIns (some mk))[i]? =
      some { m with customPayload := some (b.customPayload.getD defaultCustomPayload) } := by
  simp [mergedBuiltInAddOns, List.getElem?_map, hb, hm]

/-- Witness for C2 (amended) at the concrete built-in/marketplace pair. -/
theorem mergedPayload_C2_amended_witness :
    (mergedBuiltInAddOns [builtinX] (some [marketX]))[0]? =
      some { marketX with
        customPayload := some (builtinX.customPayload.getD defaultCustomPayload) } :=
  mergedPayload_C2_amended [builtinX] [marketX] 0 builtinX marketX rfl rfl

/-- The lower-cased merged built-in ids coincide with the built-in ids:
the marketplace override preserves `id` (it is found by id equality). -/
theorem merged_ids_eq (builtIns : List AddOn) (mk? : Option (List AddOn)) :
    (mergedBuiltInAddOns builtIns mk?).map AddOn.id = builtIns.map AddOn.id := by
  unfold mergedBuiltInAddOns
  rw [List.map_map]
  refine List.map_congr_left ?_
  intro a _
  rcases mk? with _ | l
  · rfl
  · simp only [Function.comp_apply]
    rcases hf : l.find? (fun m : AddOn => m.id == a.id) with _ | m
    · rfl
    · have := List.find?_some hf
      simp only [beq_iff_eq] at this
      simp [hf, this]

/-- A built-in named `"X"` with id `"x"`. -/
def builtinNamedX : AddOn :=
  { builtinX with name := "X" }

/-- A marketplace entry overriding the built-in's id but carrying the
name `"Y"`. -/
def marketOverrideY : AddOn :=
  { builtinX with id := "x", name := "Y", customPayload := none }

/-- A second marketplace entry, unrelated id `"z"`, also named `"Y"`. -/
def marketOtherY : AddOn :=
  { builtinX with id := "z", name := "Y", customPayload := none }

/-- Counterexample to C8 as stated: the name comparison uses the *merged*
built-in entries, whose names may come from marketplace overrides.  Here
the built-in set is `[builtinNamedX]` (name `"X"`), the marketplace is
`[marketOverrideY, marketOtherY]`; `marketOtherY` (id `"z"`, name `"Y"`)
matches no built-in id, no built-in name, and no reserved substring, so
the claim says it is visible — but the code excludes it because the merged
entry for id `"x"` took the override name `"Y"`. -/
theorem marketplaceFilter_C8_counterexample :
    (¬ marketOtherY.id ∈ [builtinNamedX].map AddOn.id) ∧
    (¬ jsToLower marketOtherY.name ∈ [builtinNamedX].map (fun a => jsToLower a.name)) ∧
    jsIncludes (jsToLower marketOtherY.name) "sdv copilot" = false ∧
    jsIncludes (jsToLower marketOtherY.name) "sdv-copilot" = false ∧
    (filteredMarketplaceAddOns [builtinNamedX]
        (some [marketOverrideY, marketOtherY])).map AddOn.id = [] := by
  refine ⟨?_, ?_, rfl, rfl, rfl⟩ <;> decide

/-- C8 as amended: a marketplace entry `m` is visible exactly when its id
matches no *merged* built-in id (these coincide with the built-in ids),
its lower-cased name matches no *merged* built-in lower-cased name (which
is the overriding marketplace entry's name when one shares the built-in's
id, else the built-in's own name), and its lower-cased name contains
neither `"sdv copilot"` nor `"sdv-copilot"`. -/
theorem marketplaceFilter_C8_amended (builtIns mk : List AddOn) (m : AddOn)
    (hm : m ∈ mk) :
    (m ∈ filteredMarketplaceAddOns builtIns (some mk) ↔
      (((mergedBuiltInAddOns builtIns (some mk)).map AddOn.id).contains m.id = false ∧
       ((mergedBuiltInAddOns builtIns (some mk)).map
          (fun a => jsToLower a.name)).contains (jsToLower m.name) = false ∧
       jsIncludes (jsToLower m.name) "sdv copilot" = false ∧
       jsIncludes (jsToLower m.name) "sdv-copilot" = false)) ∧
    (mergedBuiltInAddOns builtIns (some mk)).map AddOn.id = builtIns.map AddOn.id := by
  constructor
  · simp only [filteredMarketplaceAddOns, List.mem_filter, hm, true_and,
      Bool.and_eq_true, Bool.not_eq_true', Bool.or_eq_false_iff]
    tauto
  · exact merged_ids_eq builtIns (some mk)

/-- Witness for C8 (amended), reproducing the spec's dedup example: with
the built-in `"SDV Copilot"` present, a marketplace entry named
`"SDV-Copilot Pro"` is absent from the visible marketplace subset. -/
theorem marketplaceFilter_C8_amended_witness :
    ({ builtinX with id := "pro1", name := "SDV-Copilot Pro" } ∉
      filteredMarketplaceAddOns (builtInAddOnsFor "")
        (some [{ builtinX with id := "pro1", name := "SDV-Copilot Pro" }])) ∧
    (mergedBuiltInAddOns (builtInAddOnsFor "")
        (some [{ builtinX with id := "pro1", name := "SDV-Copilot Pro" }])).map AddOn.id =
      (builtInAddOnsFor "").map AddOn.id := by
  have h := marketplaceFilter_C8_amended (builtInAddOnsFor "")
    [{ builtinX with id := "pro1", name := "SDV-Copilot Pro" }]
    { builtinX with id := "pro1", name := "SDV-Copilot Pro" }
    (List.mem_singleton.mpr rfl)
  refine ⟨fun hmem => ?_, h.2⟩
  have := h.1.mp hmem
  revert this
  decide

/-- The built-in "SDV Copilot" descriptor in its unconfigured state
(empty endpoint). -/
def sdvCopilotUnconfigured : AddOn :=
  { id := "sdv-copilot-builtin", type := "GenAI_Python", name := "SDV Copilot"
    description := "Support develop basic SDV Python App", apiKey := "Empty"
    endpointUrl := "", customPayload := some defaultCustomPayload
    method := some "POST", requestField := some "prompt"
    responseField := some "data", samples := none, isMock := false }

/-- Counterexample to C4 as stated: with the unconfigured fallback
descriptor and an empty fallback endpoint, no HTTP request is issued —
but the "not configured" error is **not** surfaced as a user-facing
configuration error: the `throw` is consumed by the branch's own
`catch (err) { console.log(err) }`, so the full trace contains only a
console log and no `toast.error` notification. -/
theorem notConfigured_C4_counterexample :
    handleGenerate (some sdvCopilotUnconfigured) "hello" failingEnv =
      [.codeGenerated (.str ""), .loadingChange true, .consoleLog notConfiguredMsg,
       .loadingChange false, .finishChange true] ∧
    (handleGenerate (some sdvCopilotUnconfigured) "hello" failingEnv).filter
      GenEvent.isToastError = [] := by
  exact ⟨rfl, rfl⟩

/-- C4 as amended: for every non-mock generate call whose descriptor has
an empty `endpointUrl` or is the reserved `"SDV Copilot"` product, when
the process-wide fallback endpoint resolves to the empty string, no HTTP
request is issued and the "not configured" error is raised but logged to
the console only — no user-facing notification (`toast.error`) and no
further result is emitted, and the trace is exactly the erase, the
loading reports, the console log, and the finish report. -/
theorem notConfigured_C4_amended (a : AddOn) (prompt : String) (env : GenEnv)
    (hmock : a.isMock = false)
    (hfb : a.endpointUrl = "" ∨ a.name = "SDV Copilot")
    (henv : env.fallbackEndpoint = "") :
    handleGenerate (some a) prompt env =
      [.codeGenerated (.str ""), .loadingChange true, .consoleLog notConfiguredMsg,
       .loadingChange false, .finishChange true] ∧
    (handleGenerate (some a) prompt env).filter GenEvent.isHttp = [] ∧
    (handleGenerate (some a) prompt env).filter GenEvent.isToastError = [] := by
  have hbranch : ¬(a.endpointUrl ≠ "" ∧ a.name ≠ "SDV Copilot") := by
    rcases hfb with h | h <;> simp [h]
  have htrace : handleGenerate (some a) prompt env =
      [.codeGenerated (.str ""), .loadingChange true, .consoleLog notConfiguredMsg,
       .loadingChange false, .finishChange true] := by
    simp [handleGenerate, hmock, hbranch, henv]
  refine ⟨htrace, ?_, ?_⟩ <;> rw [htrace] <;> rfl

/-- Witness for C4 (amended) at the concrete unconfigured descriptor. -/
theorem notConfigured_C4_amended_witness :
    handleGenerate (some sdvCopilotUnconfigured) "hi" failingEnv =
      [.codeGenerated (.str ""), .loadingChange true, .consoleLog notConfiguredMsg,
       .loadingChange false, .finishChange true] ∧
    (handleGenerate (some sdvCopilotUnconfigured) "hi" failingEnv).filter
      GenEvent.isHttp = [] ∧
    (handleGenerate (some sdvCopilotUnconfigured) "hi" failingEnv).filter
      GenEvent.isToastError = [] :=
  notConfigured_C4_amended sdvCopilotUnconfigured "hi" failingEnv rfl
    (Or.inl rfl) rfl

/-- An asset whose configuration blob is not valid JSON. -/
def malformedAsset : Asset :=
  { name := "broken", type := "GENAI-PYTHON", data := "not json" }

/-- C6: an asset whose JSON blob fails to parse still yields a descriptor
(catalog construction never drops an entry), with `method = "POST"`; its
`requestField`/`responseField` are stored as `""`, which the dispatcher's
`|| 'prompt'` / `|| 'data'` defaults resolve to `"prompt"` and `"data"`
at every use (`strOr` is exactly that dispatch-time default). -/
theorem malformedAsset_C6 (asset : Asset) (suffix : String)
    (hbad : jsonParse asset.data = none) :
    (buildUserAddon asset suffix).method = some "POST" ∧
    (buildUserAddon asset suffix).requestField = some "" ∧
    (buildUserAddon asset suffix).responseField = some "" ∧
    strOr (buildUserAddon asset suffix).requestField "prompt" = "prompt" ∧
    strOr (buildUserAddon asset suffix).responseField "data" = "data" ∧
    (buildUserAddon asset suffix).endpointUrl = "" ∧
    (buildUserAddon asset suffix).apiKey = "" ∧
    (∀ (assets : List Asset) (f : Nat → String),
      (userAIAddons (some assets) f).length =
        (assets.filter (fun x => x.type == "GENAI-PYTHON")).length) := by
  refine ⟨?_, ?_, ?_, ?_, ?_, ?_, ?_, ?_⟩ <;>
    first
      | (simp [buildUserAddon, hbad, strOr])
      | (intro assets f; simp [userAIAddons])

/-- Witness for C6 at the concrete malformed asset. -/
theorem malformedAsset_C6_witness :
    (buildUserAddon malformedAsset "abc123").method = some "POST" ∧
    (buildUserAddon malformedAsset "abc123").requestField = some "" ∧
    (buildUserAddon malformedAsset "abc123").responseField = some "" ∧
    strOr (buildUserAddon malformedAsset "abc123").requestField "prompt" = "prompt" ∧
    strOr (buildUserAddon malformedAsset "abc123").responseField "data" = "data" ∧
    (buildUserAddon malformedAsset "abc123").endpointUrl = "" ∧
    (buildUserAddon malformedAsset "abc123").apiKey = "" ∧
    (∀ (assets : List Asset) (f : Nat → String),
      (userAIAddons (some assets) f).length =
        (assets.filter (fun x => x.type == "GENAI-PYTHON")).length) :=
  malformedAsset_C6 malformedAsset "abc123" rfl

/-- A character the JavaScript trim removes can never begin a JSON value. -/
theorem jsTrimWs_not_starter (c : Char) (h : jsTrimWs c = true) :
    c.toNat ≠ 110 ∧ c.toNat ≠ 116 ∧ c.toNat ≠ 102 ∧ c.toNat ≠ 34 ∧
    c.toNat ≠ 91 ∧ c.toNat ≠ 123 ∧ ¬(c.toNat = 45 ∨ (48 ≤ c.toNat ∧ c.toNat ≤ 57)) := by
  simp only [jsTrimWs, Bool.or_eq_true, decide_eq_true_eq, Bool.and_eq_true] at h
  refine ⟨?_, ?_, ?_, ?_, ?_, ?_, ?_⟩ <;> omega

/-- The head of `skipWs cs` is a character of `cs`. -/
theorem mem_of_skipWs (cs : List Char) (c : Char) (rest : List Char)
    (h : skipWs cs = c :: rest) : c ∈ cs := by
  have hmem : c ∈ skipWs cs := by rw [h]; exact List.mem_cons_self c rest
  exact (List.dropWhile_sublist jsonWs).subset hmem

/-- On input made only of JavaScript trim whitespace, the JSON value
parser fails: after skipping JSON whitespace, the head (if any) is a
whitespace character, which begins no JSON value. -/
theorem parseCore_allWs (fuel : Nat) (cs : List Char)
    (h : ∀ x ∈ cs, jsTrimWs x = true) : parseCore fuel 0 cs = none := by
  cases fuel with
  | zero => rfl
  | succ f =>
    rcases hsw : skipWs cs with _ | ⟨c, rest⟩
    · simp [parseCore, hsw]
    · have hc := h c (mem_of_skipWs cs c rest hsw)
      obtain ⟨h1, h2, h3, h4, h5, h6, h7⟩ := jsTrimWs_not_starter c hc
      simp [parseCore, hsw, h1, h2, h3, h4, h5, h6, h7]

/-- If the JavaScript trim of `l` is empty, every character of `l` is
trim whitespace. -/
theorem all_ws_of_jsTrimList_nil (l : List Char) (h : jsTrimList l = []) :
    ∀ c ∈ l, jsTrimWs c = true := by
  unfold jsTrimList at h
  rw [List.reverse_eq_nil_iff] at h
  have h3 := List.dropWhile_eq_nil_iff.mp h
  have h4 : ∀ x ∈ l.dropWhile jsTrimWs, jsTrimWs x = true := fun x hx =>
    h3 x (List.mem_reverse.mpr hx)
  intro c hcl
  have hsplit : c ∈ l.takeWhile jsTrimWs ++ l.dropWhile jsTrimWs := by
    rw [List.takeWhile_append_dropWhile]; exact hcl
  rcases List.mem_append.mp hsplit with hmem | hmem
  · exact List.all_eq_true.mp List.all_takeWhile c hmem
  · exact h4 c hmem

/-- A string whose JavaScript trim is empty never parses as JSON. -/
theorem jsonParse_of_trim_nil (s : String) (h : jsTrim s = "") :
    jsonParse s = none := by
  have hl : jsTrimList s.toList = [] := by
    have hd := congrArg String.data h
    simpa [jsTrim] using hd
  have hws := all_ws_of_jsTrimList_nil s.toList hl
  have hnone : parseCore (2 * s.toList.length + 4) 0 s.toList = none :=
    parseCore_allWs _ _ hws
  show (match parseCore (2 * s.toList.length + 4) 0 s.toList with
        | some (PRes.val j, rest) => if skipWs rest = [] then some j else none
        | _ => none) = none
  rw [hnone]

/-- C5: the content-mode classifier `getEditorType` is a pure function of
the document text: it yields the project (structured-project) mode exactly
when the text parses as JSON whose result is an array, and the code
(flat-code) mode on any parse failure, non-array parse result, or
empty/whitespace-only text; in particular `"[]"` maps to project and
`""` and `"print(1)"` map to code. -/
theorem contentMode_C5 (s : String) :
    (getEditorType s = .project ↔ ∃ xs, jsonParse s = some (Json.arr xs)) ∧
    getEditorType "[]" = .project ∧
    getEditorType "" = .code ∧
    getEditorType "print(1)" = .code := by
  refine ⟨⟨?_, ?_⟩, by decide, by decide, by decide⟩
  · intro h
    unfold getEditorType at h
    split at h
    · exact absurd h (by decide)
    · rcases hj : jsonParse s with _ | j
      · rw [hj] at h; exact absurd h (by decide)
      · rcases j with _ | b | ⟨n, i, f2, e⟩ | t | xs | fs
        · rw [hj] at h; simp at h
        · rw [hj] at h; simp at h
        · rw [hj] at h; simp at h
        · rw [hj] at h; simp at h
        · exact ⟨xs, rfl⟩
        · rw [hj] at h; simp at h
  · rintro ⟨xs, hj⟩
    have hne : s ≠ "" := by
      rintro rfl
      rw [show jsonParse "" = none from rfl] at hj
      cases hj
    have ht : jsTrim s ≠ "" := by
      intro he
      rw [jsonParse_of_trim_nil s he] at hj
      cases hj
    unfold getEditorType
    rw [if_neg (not_or.mpr ⟨hne, ht⟩), hj]

end Autowrx
